import Mathlib

/-!
Shallow embedding of the parameter-serialization and request-construction
engine of `packages/openapi-fetch/src/index.js`.

Modelling conventions:
- JavaScript runtime values that may reach the serializers are modelled by
  `JSValue` (undefined, null, string, number, boolean, array, object).
  Numbers are modelled as `Int` (the code never computes with them, it only
  stringifies; no claim involves non-integer numbers).
- JS objects are modelled as insertion-ordered association lists of string
  keys; `for (const k in o)` iterates that order (the JS reordering of
  integer-like keys is not modelled, no claim involves such keys).
- Functions that can throw (`serializePrimitiveParam` and everything that
  calls it) return `Except String α`; `Except.error` models a thrown error.
- `encodeURIComponent` is implemented per ECMA-262: characters other than
  `A-Z a-z 0-9 - _ . ! ~ * ' ( )` are written as uppercase `%XX` escapes of
  their UTF-8 bytes.
-/

inductive JSValue where
  | undef
  | null
  | str (s : String)
  | num (n : Int)
  | bool (b : Bool)
  | arr (elems : List JSValue)
  | obj (fields : List (String × JSValue))
deriving Repr

mutual

/-- The JS `String(v)` coercion (used by template literals and by
`encodeURIComponent`): `undefined` / `null` become the literal words,
arrays stringify like `Array.prototype.toString` (comma join, with nullish
elements becoming empty), plain objects become `[object Object]`. -/
def jsToString : JSValue → String
  | .undef => "undefined"
  | .null => "null"
  | .str s => s
  | .num n => toString n
  | .bool b => cond b "true" "false"
  | .obj _ => "[object Object]"
  | .arr xs => jsJoinComma xs

/-- JS `Array.prototype.join(",")` over raw JS values. -/
def jsJoinComma : List JSValue → String
  | [] => ""
  | [v] => jsElem v
  | v :: vs => jsElem v ++ "," ++ jsJoinComma vs

/-- How `Array.prototype.join` stringifies one element: like `String(v)`
except that `undefined` and `null` become the empty string. -/
def jsElem : JSValue → String
  | .undef => ""
  | .null => ""
  | .str s => s
  | .num n => toString n
  | .bool b => cond b "true" "false"
  | .obj _ => "[object Object]"
  | .arr xs => jsJoinComma xs

end

/-- JS `Array.prototype.join(sep)` over raw JS values. -/
def jsJoin (sep : String) : List JSValue → String
  | [] => ""
  | [v] => jsElem v
  | v :: vs => jsElem v ++ sep ++ jsJoin sep vs

/-- Characters `encodeURIComponent` leaves unescaped
(ECMA-262 `uriUnescaped`): alphanumerics and `- _ . ! ~ * ' ( )`. -/
def isURIUnescaped (c : Char) : Bool :=
  c.isAlphanum || c = '-' || c = '_' || c = '.' || c = '!' || c = '~' ||
    c = '*' || c = '\'' || c = '(' || c = ')'

/-- Uppercase hex digit for `n < 16`. -/
def hexDigit (n : Nat) : Char :=
  if n < 10 then Char.ofNat (48 + n) else Char.ofNat (55 + n)

/-- UTF-8 bytes of a character, as natural numbers. -/
def utf8Bytes (c : Char) : List Nat :=
  let n := c.toNat
  if n < 0x80 then [n]
  else if n < 0x800 then [0xC0 + n / 0x40, 0x80 + n % 0x40]
  else if n < 0x10000 then
    [0xE0 + n / 0x1000, 0x80 + (n / 0x40) % 0x40, 0x80 + n % 0x40]
  else
    [0xF0 + n / 0x40000, 0x80 + (n / 0x1000) % 0x40,
     0x80 + (n / 0x40) % 0x40, 0x80 + n % 0x40]

/-- The `%XX` escape of one byte, uppercase hex. -/
def percentByte (b : Nat) : String :=
  "%" ++ String.mk [hexDigit (b / 16), hexDigit (b % 16)]

/-- The JS global `encodeURIComponent`. -/
def encodeURIComponent (s : String) : String :=
  String.join (s.data.map fun c =>
    if isURIUnescaped c then String.mk [c]
    else String.join ((utf8Bytes c).map percentByte))

/-- The option bag passed to the low-level serializers.  The source only
ever tests `options.explode === false` and `options.allowReserved === true`,
so `Bool` fields capture the behaviour exactly (a JS `undefined` field
behaves like `explode := true` / `allowReserved := false`).  `style` is kept
as an open string, mirroring the source's dynamic string dispatch. -/
structure SerializationOptions where
  style : String := ""
  explode : Bool := true
  allowReserved : Bool := false
deriving Repr

/-- Source `serializePrimitiveParam(name, value, options)` (index.js lines 169-179).
`undefined`/`null` give the empty string; arrays and objects (JS
`typeof value === "object"` after the null check) throw; otherwise
`name=` followed by the (possibly percent-encoded) stringified value.
(The thrown message is abridged here.) -/
def serializePrimitiveParam (name : String) (value : JSValue)
    (options : SerializationOptions) : Except String String :=
  match value with
  | .undef => .ok ""
  | .null => .ok ""
  | .arr _ => .error "Deeply-nested arrays/objects are not supported. Provide your own querySerializer() to handle these."
  | .obj _ => .error "Deeply-nested arrays/objects are not supported. Provide your own querySerializer() to handle these."
  | v => .ok (name ++ "=" ++
      (if options.allowReserved then jsToString v else encodeURIComponent (jsToString v)))

/-- The keys/values that `for (const k in value)` visits: the fields of an
object, or the indices (as strings) of an array; `none` when the source's
guard `!value || typeof value !== "object"` rejects the input. -/
def entriesForIn : JSValue → Option (List (String × JSValue))
  | .obj fields => some fields
  | .arr xs => some (xs.enum.map fun p => (toString p.1, p.2))
  | _ => none

/-- Source `serializeObjectParam(name, value, options)` (index.js lines 185-233).
Note the source guard `options.style !== "deepObject" && options.explode === false`:
`deepObject` always takes the exploded branch. -/
def serializeObjectParam (name : String) (value : JSValue)
    (options : SerializationOptions) : Except String String :=
  match entriesForIn value with
  | none => .ok ""
  | some entries =>
    let joiner :=
      match options.style with
      | "simple" => ","
      | "label" => "."
      | "matrix" => ";"
      | _ => "&"
    if options.style ≠ "deepObject" ∧ options.explode = false then
      -- explode: false — push k and the (raw or encoded) value, join by ","
      let values : List JSValue := entries.flatMap fun kv =>
        [JSValue.str kv.1,
         if options.allowReserved then kv.2
         else JSValue.str (encodeURIComponent (jsToString kv.2))]
      let final := jsJoin "," values
      .ok (match options.style with
        | "form" => name ++ "=" ++ final
        | "label" => "." ++ final
        | "matrix" => ";" ++ name ++ "=" ++ final
        | _ => final)
    else do
      -- explode: true
      let values ← entries.mapM fun kv => do
        let finalName :=
          if options.style = "deepObject" then name ++ "[" ++ kv.1 ++ "]" else kv.1
        serializePrimitiveParam finalName kv.2 options
      let final := String.intercalate joiner values
      .ok (if options.style = "label" ∨ options.style = "matrix"
        then joiner ++ final else final)

/-- Source `serializeArrayParam(name, value, options)` (index.js lines 239-285). -/
def serializeArrayParam (name : String) (value : JSValue)
    (options : SerializationOptions) : Except String String :=
  match value with
  | .arr xs =>
    if options.explode = false then
      let joiner :=
        match options.style with
        | "form" => ","
        | "spaceDelimited" => "%20"
        | "pipeDelimited" => "|"
        | _ => ","
      let final :=
        if options.allowReserved then jsJoin joiner xs
        else jsJoin joiner (xs.map fun v => JSValue.str (encodeURIComponent (jsToString v)))
      .ok (match options.style with
        | "simple" => final
        | "label" => "." ++ final
        | "matrix" => ";" ++ name ++ "=" ++ final
        | _ => name ++ "=" ++ final)
    else do
      let joiner :=
        match options.style with
        | "simple" => ","
        | "label" => "."
        | "matrix" => ";"
        | _ => "&"
      let values ← xs.mapM fun v =>
        if options.style = "simple" ∨ options.style = "label" then
          pure (if options.allowReserved then v
            else JSValue.str (encodeURIComponent (jsToString v)))
        else do
          let s ← serializePrimitiveParam name v options
          pure (JSValue.str s)
      let joined := jsJoin joiner values
      .ok (if options.style = "label" ∨ options.style = "matrix"
        then joiner ++ joined else joined)
  | _ => .ok ""

theorem serializeArrayParam_simple_scenario :
    serializeArrayParam "id" (.arr [.num 3, .num 4, .num 5])
      { style := "simple", explode := false } = .ok "3,4,5" := rfl

theorem serializeObjectParam_deepObject_scenario :
    serializeObjectParam "color"
      (.obj [("R", .num 100), ("G", .num 200), ("B", .num 150)])
      { style := "deepObject", explode := true } =
      .ok "color[R]=100&color[G]=200&color[B]=150" := rfl

/-- A partial style/explode override object (`options.array` / `options.object`
in the query-serializer options); `none` fields model absent JS properties. -/
structure PartialSerOptions where
  style : Option String := none
  explode : Option Bool := none
deriving Repr

/-- The object form of the `querySerializer` client option. -/
structure QuerySerializerOptions where
  array : Option PartialSerOptions := none
  object : Option PartialSerOptions := none
  allowReserved : Option Bool := none
deriving Repr

/-- The options built for an array-valued query parameter:
`{style: "form", explode: true, ...options?.array, allowReserved: options?.allowReserved || false}`. -/
def arrayCallOptions (options : QuerySerializerOptions) : SerializationOptions :=
  { style := ((options.array.getD {}).style).getD "form"
    explode := ((options.array.getD {}).explode).getD true
    allowReserved := options.allowReserved.getD false }

/-- The options built for an object-valued query parameter:
`{style: "deepObject", explode: true, ...options?.object, allowReserved: options?.allowReserved || false}`. -/
def objectCallOptions (options : QuerySerializerOptions) : SerializationOptions :=
  { style := ((options.object.getD {}).style).getD "deepObject"
    explode := ((options.object.getD {}).explode).getD true
    allowReserved := options.allowReserved.getD false }

/-- The body of the `for (const name in queryParams)` loop of the serializer
returned by `createQuerySerializer` (index.js lines 294-323), producing the
list of pushed fragments. -/
def querySerializerGo (options : QuerySerializerOptions) :
    List (String × JSValue) → Except String (List String)
  | [] => .ok []
  | (name, value) :: rest =>
    match value with
    | .undef => querySerializerGo options rest
    | .null => querySerializerGo options rest
    | .arr xs => do
      let frag ← serializeArrayParam name (.arr xs) (arrayCallOptions options)
      let tail ← querySerializerGo options rest
      .ok (frag :: tail)
    | .obj fs => do
      let frag ← serializeObjectParam name (.obj fs) (objectCallOptions options)
      let tail ← querySerializerGo options rest
      .ok (frag :: tail)
    | v => do
      -- `serializePrimitiveParam(name, queryParams[name], options)`: the raw
      -- options bag is passed; only `allowReserved === true` is read from it.
      let frag ← serializePrimitiveParam name v
        { allowReserved := options.allowReserved.getD false }
      let tail ← querySerializerGo options rest
      .ok (frag :: tail)

/-- Source `createQuerySerializer(options)` (index.js lines 291-326): the returned
serializer pushes one fragment per defined parameter and joins all pushed
fragments with `&`.  Query parameter maps are modelled directly as ordered
association lists (the source's `queryParams && typeof queryParams === "object"`
guard is vacuous for them). -/
def createQuerySerializer (options : QuerySerializerOptions)
    (queryParams : List (String × JSValue)) : Except String String := do
  let search ← querySerializerGo options queryParams
  .ok (String.intercalate "&" search)

mutual

/-- All matches of the global regex `/\{[^{}]+\}/g` in a string, in order,
implemented directly on the character list (a match is `{`, one or more
non-brace characters, `}`; matching is leftmost and non-overlapping). -/
def findCurlyMatches : List Char → List String
  | [] => []
  | c :: rest =>
    if c = '{' then scanCurly [] rest else findCurlyMatches rest

/-- Scanning state after an opening `{`: `acc` holds the reversed content
seen so far.  Hitting `}` closes a match (if the content is non-empty);
hitting another `{` restarts the scan at that brace, as the regex would. -/
def scanCurly (acc : List Char) : List Char → List String
  | [] => []
  | c :: rest =>
    if c = '}' then
      if acc.isEmpty then findCurlyMatches rest
      else ("\x7b" ++ String.mk acc.reverse ++ "\x7d") :: findCurlyMatches rest
    else if c = '{' then scanCurly [] rest
    else scanCurly (c :: acc) rest

end

/-- Is `pat` a prefix of `s` (on character lists)? -/
def isPrefixOfCL : List Char → List Char → Bool
  | [], _ => true
  | _ :: _, [] => false
  | a :: as, b :: bs => a = b && isPrefixOfCL as bs

/-- JS `String.prototype.replace(pattern, repl)` with a non-empty plain-string
pattern: replace the first occurrence only.  (The JS `$`-substitution rules
for the replacement string are not modelled; no replacement produced by the
path serializer is treated specially by them in any claim.) -/
def replaceFirstCL (pat repl : List Char) : List Char → List Char
  | [] => []
  | c :: rest =>
    if isPrefixOfCL pat (c :: rest) then repl ++ (c :: rest).drop pat.length
    else c :: replaceFirstCL pat repl rest

/-- String version of `replaceFirstCL`. -/
def replaceFirst (s pat repl : String) : String :=
  String.mk (replaceFirstCL pat.data repl.data s.data)

/-- JS `s.startsWith(c)` for a single-character pattern. -/
def startsWithChar (s : String) (c : Char) : Bool :=
  match s.data with
  | [] => false
  | d :: _ => d = c

/-- JS `s.endsWith(c)` for a single-character pattern. -/
def endsWithChar (s : String) (c : Char) : Bool :=
  s.data.getLast? = some c

/-- JS property lookup on an ordered association list. -/
def jsLookup (fields : List (String × JSValue)) (k : String) : Option JSValue :=
  (fields.find? fun kv => kv.1 == k).map fun kv => kv.2

/-- Source `defaultPathSerializer(pathname, pathParams)` (index.js lines 333-395).
Returns `none` (JS `undefined`) when the template holds no `{...}`
placeholder; otherwise substitutes each placeholder in match order,
leaving it in place when the named parameter is absent or nullish. -/
def defaultPathSerializer (pathname : String)
    (pathParams : List (String × JSValue)) : Except String (Option String) := do
  let ms := findCurlyMatches pathname.data
  if ms.isEmpty then
    return none
  let nextURL ← ms.foldlM (fun (nextURL : String) (mtch : String) => do
    let inner := (mtch.drop 1).dropRight 1
    let explode := endsWithChar inner '*'
    let p1 := if endsWithChar inner '*' then inner.dropRight 1 else inner
    let style :=
      if startsWithChar p1 '.' then "label"
      else if startsWithChar p1 ';' then "matrix"
      else "simple"
    let paramName :=
      if startsWithChar p1 '.' ∨ startsWithChar p1 ';' then p1.drop 1 else p1
    match jsLookup pathParams paramName with
    | none => pure nextURL
    | some .undef => pure nextURL
    | some .null => pure nextURL
    | some (.arr xs) => do
      let s ← serializeArrayParam paramName (.arr xs)
        { style := style, explode := explode }
      pure (replaceFirst nextURL mtch s)
    | some (.obj fs) => do
      let s ← serializeObjectParam paramName (.obj fs)
        { style := style, explode := explode }
      pure (replaceFirst nextURL mtch s)
    | some v =>
      if style = "matrix" then do
        let s ← serializePrimitiveParam paramName v {}
        pure (replaceFirst nextURL mtch (";" ++ s))
      else
        pure (replaceFirst nextURL mtch
          (if style = "label" then "." ++ jsToString v else jsToString v))
    ) pathname
  return some nextURL

/-- The `baseUrl` normalization in `createClient` (index.js lines 20-23):
`endsWith("/")` tests the last character; `slice(0, -1)` drops it. -/
def normalizeBaseUrl (baseUrl : String) : String :=
  if baseUrl.data.getLast? = some '/' then String.mk baseUrl.data.dropLast
  else baseUrl

/-- Source `search.replace(LEADING_QUESTION_RE, "")` with `LEADING_QUESTION_RE = /^\?+/`:
drop the maximal leading run of `?`. -/
def stripLeadingQuestionMarks (s : String) : String :=
  String.mk (s.data.dropWhile fun c => c = '?')

/-- The pieces of the `options` argument of `createFinalURL`: the normalized
base URL, `params.path` (`none` when absent/falsy), `params.query ?? {}`,
and the resolved query serializer. -/
structure FinalURLOptions where
  baseUrl : String
  pathParams : Option (List (String × JSValue))
  queryParams : List (String × JSValue)
  querySerializer : List (String × JSValue) → Except String String

/-- Source `createFinalURL(pathname, options)` (index.js lines 409-421).  The result
is `none` exactly when the JS code produces the value `undefined` (the
path-serializer result assigned without a check); the JS `+=` on `undefined`
coerces it to the text `"undefined"`. -/
def createFinalURL (pathname : String) (options : FinalURLOptions) :
    Except String (Option String) := do
  let finalURL : Option String := some (options.baseUrl ++ pathname)
  let finalURL ←
    match options.pathParams with
    | some pp => defaultPathSerializer (options.baseUrl ++ pathname) pp
    | none => pure finalURL
  let search := stripLeadingQuestionMarks (← options.querySerializer options.queryParams)
  if search = "" then
    return finalURL
  else
    return some ((match finalURL with
      | some s => s
      | none => "undefined") ++ "?" ++ search)

theorem defaultPathSerializer_scenario :
    defaultPathSerializer "/users/{id}/teams/{team*}"
      [("id", .str "42"), ("team", .arr [.str "a", .str "b"])] =
      .ok (some "/users/42/teams/a,b") := rfl

/-- Case-insensitive header-name normalization (the `Headers` class treats
names case-insensitively; we normalize to lower case). -/
def hdrNorm (s : String) : String := String.mk (s.data.map Char.toLower)

/-- JS `Headers.prototype.delete`. -/
def headersDelete (hs : List (String × String)) (k : String) :
    List (String × String) :=
  hs.filter fun e => e.1 != hdrNorm k

/-- JS `Headers.prototype.set`: replace any entry with the (case-insensitively)
same name by the new value. -/
def headersSet (hs : List (String × String)) (k v : String) :
    List (String × String) :=
  headersDelete hs k ++ [(hdrNorm k, v)]

/-- JS `Headers.prototype.get` (single-valued here: `set` never duplicates). -/
def headersGet (hs : List (String × String)) (k : String) : Option String :=
  (hs.find? fun e => e.1 == hdrNorm k).map fun e => e.2

/-- One iteration of the inner loop of `mergeHeaders` (index.js lines 437-443):
`null` deletes, `undefined` is a no-op, anything else sets (stringified, as
`Headers.set` coerces). -/
def applyHeaderEntry (hs : List (String × String)) (kv : String × JSValue) :
    List (String × String) :=
  match kv.2 with
  | .null => headersDelete hs kv.1
  | .undef => hs
  | v => headersSet hs kv.1 (jsToString v)

/-- Source `mergeHeaders(...allHeaders)` (index.js lines 427-446).  A source that is
falsy or not an object is skipped; such sources are modelled as `none`. -/
def mergeHeaders (allHeaders : List (Option (List (String × JSValue)))) :
    List (String × String) :=
  allHeaders.foldl
    (fun hs src =>
      match src with
      | none => hs
      | some entries => entries.foldl applyHeaderEntry hs)
    []

/-- A transport response, as far as `coreFetch` observes it.  `clone()` makes
body reads re-runnable, so each parse method is modelled as a pure field:
`jsonBody` is the outcome of `.json()` (`Except.error` = rejected parse),
`textBody` of `.text()`; `blobBody`, `arrayBufferBody` and `body` (the raw
stream) are opaque values. -/
structure JsResponse where
  ok : Bool
  status : Nat
  contentLength : Option String
  jsonBody : Except String JSValue
  textBody : String
  blobBody : JSValue
  arrayBufferBody : JSValue
  body : JSValue

/-- The classified outcome of one request: `{data, response}` or
`{error, response}`. -/
inductive FetchResult where
  | success (data : JSValue) (response : JsResponse)
  | failure (error : JSValue) (response : JsResponse)

/-- The response-classification tail of `coreFetch` (index.js lines 92-124),
taking the awaited transport response (request construction and the transport
call itself are upstream of this).  An `Except.error` result models an
exception escaping `coreFetch` (only possible on the ok path, when the
selected parse method rejects). -/
def coreFetchHandleResponse (parseAs : String) (response : JsResponse) :
    Except String FetchResult :=
  if response.status = 204 ∨ response.contentLength = some "0" then
    .ok (if response.ok then .success (.obj []) response
      else .failure (.obj []) response)
  else if response.ok then
    if parseAs = "stream" then .ok (.success response.body response)
    else do
      let d ←
        match parseAs with
        | "json" => response.jsonBody
        | "text" => .ok (JSValue.str response.textBody)
        | "blob" => .ok response.blobBody
        | "arrayBuffer" => .ok response.arrayBufferBody
        | _ => .ok (JSValue.str response.textBody)
      .ok (.success d response)
  else
    match response.jsonBody with
    | .ok e => .ok (.failure e response)
    | .error _ => .ok (.failure (.str response.textBody) response)

/-! ## Claim theorems -/

/-- C4: `serializePrimitiveParam` yields the empty string for `undefined` and
`null`, throws for every array or (non-null) object value, and for every
scalar value yields `name=` followed by `encodeURIComponent(String(value))`
when `allowReserved` is not `true`, or by the stringified value itself when
`allowReserved` is `true`. -/
theorem serializePrimitiveParam_spec (name : String)
    (options : SerializationOptions) :
    (serializePrimitiveParam name .undef options = .ok "" ∧
     serializePrimitiveParam name .null options = .ok "") ∧
    (∀ xs, ∃ msg, serializePrimitiveParam name (.arr xs) options = .error msg) ∧
    (∀ fields, ∃ msg,
      serializePrimitiveParam name (.obj fields) options = .error msg) ∧
    (∀ s : String, serializePrimitiveParam name (.str s) options =
      .ok (name ++ "=" ++
        (if options.allowReserved then jsToString (.str s)
         else encodeURIComponent (jsToString (.str s))))) ∧
    (∀ n : Int, serializePrimitiveParam name (.num n) options =
      .ok (name ++ "=" ++
        (if options.allowReserved then jsToString (.num n)
         else encodeURIComponent (jsToString (.num n))))) ∧
    (∀ b : Bool, serializePrimitiveParam name (.bool b) options =
      .ok (name ++ "=" ++
        (if options.allowReserved then jsToString (.bool b)
         else encodeURIComponent (jsToString (.bool b))))) := by
  refine ⟨⟨rfl, rfl⟩, fun xs => ⟨_, rfl⟩, fun fields => ⟨_, rfl⟩,
    fun s => rfl, fun n => rfl, fun b => rfl⟩

/-- C7: when the transport response has status 204 or a Content-Length
header equal to `"0"`, `coreFetch` returns the empty-object sentinel without
reading any body field: `{data: {}, response}` when `ok`, otherwise
`{error: {}, response}` — the classification depends only on the `ok` flag. -/
theorem coreFetch_empty_content (parseAs : String) (r : JsResponse)
    (h : r.status = 204 ∨ r.contentLength = some "0") :
    coreFetchHandleResponse parseAs r =
      .ok (if r.ok then .success (.obj []) r else .failure (.obj []) r) := by
  unfold coreFetchHandleResponse
  rw [if_pos h]

/-- Witness for `coreFetch_empty_content` at two concrete responses
(status 204, `ok` true and false). -/
theorem coreFetch_empty_content_witness :
    coreFetchHandleResponse "json"
      { ok := true, status := 204, contentLength := none,
        jsonBody := .error "SyntaxError", textBody := "t",
        blobBody := .null, arrayBufferBody := .null, body := .null } =
      .ok (.success (.obj [])
        { ok := true, status := 204, contentLength := none,
          jsonBody := .error "SyntaxError", textBody := "t",
          blobBody := .null, arrayBufferBody := .null, body := .null }) ∧
    coreFetchHandleResponse "json"
      { ok := false, status := 204, contentLength := none,
        jsonBody := .error "SyntaxError", textBody := "t",
        blobBody := .null, arrayBufferBody := .null, body := .null } =
      .ok (.failure (.obj [])
        { ok := false, status := 204, contentLength := none,
          jsonBody := .error "SyntaxError", textBody := "t",
          blobBody := .null, arrayBufferBody := .null, body := .null }) := by
  constructor
  · exact coreFetch_empty_content "json" _ (Or.inl rfl)
  · exact coreFetch_empty_content "json" _ (Or.inl rfl)

/-- C8: for a non-ok, non-empty response, `coreFetch` parses the body as
JSON if possible and otherwise falls back to the raw text body, and in both
cases returns a `{error, response}` result instead of throwing; in
particular an invalid-JSON body yields the raw text as the error. -/
theorem coreFetch_nonok_parse_fallback (parseAs : String) (r : JsResponse)
    (hok : r.ok = false)
    (hne : ¬ (r.status = 204 ∨ r.contentLength = some "0")) :
    coreFetchHandleResponse parseAs r =
      .ok (.failure
        (match r.jsonBody with
         | .ok e => e
         | .error _ => .str r.textBody) r) := by
  unfold coreFetchHandleResponse
  rw [if_neg hne, hok]
  cases hj : r.jsonBody <;> simp [hj]

/-- Witness for `coreFetch_nonok_parse_fallback`: a non-ok response whose
body is invalid JSON yields the raw text body as the error. -/
theorem coreFetch_nonok_parse_fallback_witness :
    coreFetchHandleResponse "json"
      { ok := false, status := 500, contentLength := some "4",
        jsonBody := .error "SyntaxError", textBody := "oops",
        blobBody := .null, arrayBufferBody := .null, body := .null } =
      .ok (.failure (.str "oops")
        { ok := false, status := 500, contentLength := some "4",
          jsonBody := .error "SyntaxError", textBody := "oops",
          blobBody := .null, arrayBufferBody := .null, body := .null }) := by
  exact coreFetch_nonok_parse_fallback "json" _ rfl (by simp)

/-- C9: `createClient` removes exactly one trailing `/` from the configured
base URL, so a base URL written with one trailing slash and the same base URL
without it normalize to the same string, and `createFinalURL` builds
identical URLs from them for every request; a base URL without a trailing
slash is left unchanged. -/
theorem baseUrl_trailing_slash_normalization (b : String)
    (hb : b.data.getLast? ≠ some '/') :
    normalizeBaseUrl (b ++ "/") = b ∧ normalizeBaseUrl b = b ∧
    ∀ (pathname : String) (pp : Option (List (String × JSValue)))
      (qp : List (String × JSValue))
      (qs : List (String × JSValue) → Except String String),
      createFinalURL pathname
        { baseUrl := normalizeBaseUrl (b ++ "/"), pathParams := pp,
          queryParams := qp, querySerializer := qs } =
      createFinalURL pathname
        { baseUrl := normalizeBaseUrl b, pathParams := pp,
          queryParams := qp, querySerializer := qs } := by
  have h1 : normalizeBaseUrl (b ++ "/") = b := by
    unfold normalizeBaseUrl
    rw [if_pos (by rw [String.data_append]; exact List.getLast?_concat b.data)]
    rw [String.data_append]
    show String.mk (b.data ++ ['/']).dropLast = b
    rw [List.dropLast_concat]
  have h2 : normalizeBaseUrl b = b := by
    unfold normalizeBaseUrl
    rw [if_neg hb]
  exact ⟨h1, h2, fun pathname pp qp qs => by rw [h1, h2]⟩

/-- Witness for `baseUrl_trailing_slash_normalization` at
`b := "https://x"`. -/
theorem baseUrl_trailing_slash_normalization_witness :
    normalizeBaseUrl "https://x/" = "https://x" ∧
    normalizeBaseUrl "https://x" = "https://x" ∧
    createFinalURL "/ping"
      { baseUrl := normalizeBaseUrl "https://x/", pathParams := none,
        queryParams := [], querySerializer := createQuerySerializer {} } =
    createFinalURL "/ping"
      { baseUrl := normalizeBaseUrl "https://x", pathParams := none,
        queryParams := [], querySerializer := createQuerySerializer {} } := by
  have h := baseUrl_trailing_slash_normalization "https://x" (by decide)
  refine ⟨by rw [show ("https://x" ++ "/" : String) = "https://x/" from rfl] at h; exact h.1,
    h.2.1, ?_⟩
  have h3 := h.2.2 "/ping" none [] (createQuerySerializer {})
  rw [show ("https://x" ++ "/" : String) = "https://x/" from rfl] at h3
  exact h3

/-- The effect of one header entry value on the currently resolved value of
a key it names: `null` deletes, `undefined` keeps, anything else overwrites
with the stringified value. -/
def headerEntryEffect (old : Option String) : JSValue → Option String
  | .null => none
  | .undef => old
  | v => some (jsToString v)

/-- One step of key-by-key last-writer-wins resolution: an entry touches the
resolved value exactly when its name matches case-insensitively. -/
def resolveHeaderStep (k : String) (acc : Option String)
    (kv : String × JSValue) : Option String :=
  if hdrNorm kv.1 = hdrNorm k then headerEntryEffect acc kv.2 else acc

/-- Last-writer-wins resolution of one key over a flat entry sequence. -/
def resolveHeaderKey (k : String) (entries : List (String × JSValue)) :
    Option String :=
  entries.foldl (resolveHeaderStep k) none

/-- All entries of a merge's sources, concatenated left to right (skipped
sources contribute nothing). -/
def flattenHeaderSources (srcs : List (Option (List (String × JSValue)))) :
    List (String × JSValue) :=
  srcs.foldr (fun src acc => src.getD [] ++ acc) []


theorem headersGet_delete (hs : List (String × String)) (k2 k : String) :
    headersGet (headersDelete hs k2) k =
      if hdrNorm k2 = hdrNorm k then none else headersGet hs k := by
  induction hs with
  | nil => simp [headersGet, headersDelete]
  | cons e tl ih =>
    by_cases he2 : e.1 = hdrNorm k2
    · by_cases hk : hdrNorm k2 = hdrNorm k
      · simp only [headersDelete, List.filter_cons] at ih ⊢
        simpa [he2, hk] using ih
      · have hek : ¬ (e.1 = hdrNorm k) := by rw [he2]; exact hk
        simp only [headersDelete, List.filter_cons] at ih ⊢
        simpa [he2, hk, headersGet, List.find?_cons, hek] using ih
    · by_cases hek : e.1 = hdrNorm k
      · have hk : ¬ (hdrNorm k2 = hdrNorm k) := fun h => he2 (by rw [hek, h])
        have hk' : ¬ (hdrNorm k = hdrNorm k2) := fun h => hk h.symm
        simp only [headersDelete, List.filter_cons] at ih ⊢
        simp [he2, hk, hk', headersGet, List.find?_cons, hek]
      · simp only [headersDelete, List.filter_cons] at ih ⊢
        simpa [he2, headersGet, List.find?_cons, hek] using ih

theorem headersGet_append (hs1 hs2 : List (String × String)) (k : String) :
    headersGet (hs1 ++ hs2) k = ((headersGet hs1 k).or (headersGet hs2 k)) := by
  simp [headersGet, List.find?_append]
  cases hf : hs1.find? fun e => e.1 == hdrNorm k <;> simp

theorem headersGet_set (hs : List (String × String)) (k2 v k : String) :
    headersGet (headersSet hs k2 v) k =
      if hdrNorm k2 = hdrNorm k then some v else headersGet hs k := by
  unfold headersSet
  rw [headersGet_append, headersGet_delete]
  by_cases hk : hdrNorm k2 = hdrNorm k
  · simp [hk, headersGet, List.find?_cons]
  · simp [hk, headersGet, List.find?_cons]

theorem headersGet_applyHeaderEntry (hs : List (String × String))
    (kv : String × JSValue) (k : String) :
    headersGet (applyHeaderEntry hs kv) k =
      resolveHeaderStep k (headersGet hs k) kv := by
  rcases kv with ⟨k2, v⟩
  cases v <;>
    simp [applyHeaderEntry, resolveHeaderStep, headerEntryEffect,
      headersGet_delete, headersGet_set, jsToString]

theorem headersGet_foldl_entries (entries : List (String × JSValue))
    (hs : List (String × String)) (k : String) :
    headersGet (entries.foldl applyHeaderEntry hs) k =
      entries.foldl (resolveHeaderStep k) (headersGet hs k) := by
  induction entries generalizing hs with
  | nil => rfl
  | cons kv rest ih =>
    simp only [List.foldl_cons, ih, headersGet_applyHeaderEntry]

/-- C6: `mergeHeaders` resolves every header key independently by
last-writer-wins over the concatenation of its sources' entries, comparing
names case-insensitively, with a `null` value deleting the key and an
`undefined` value leaving it untouched; in particular merging
`[{A:"1"}, {A:null}]` yields a collection with no key at all, merging
`[{A:"1"}, {A:undefined}]` keeps `A` at `"1"`, and a later differently-cased
name overrides an earlier one. -/
theorem mergeHeaders_last_writer_wins :
    (∀ (srcs : List (Option (List (String × JSValue)))) (k : String),
      headersGet (mergeHeaders srcs) k =
        resolveHeaderKey k (flattenHeaderSources srcs)) ∧
    mergeHeaders [some [("A", .str "1")], some [("A", .null)]] = [] ∧
    headersGet (mergeHeaders [some [("A", .str "1")], some [("A", .undef)]]) "A" =
      some "1" ∧
    mergeHeaders [some [("Content-Type", .str "a")],
      some [("content-TYPE", .null)]] = [] := by
  refine ⟨?_, rfl, rfl, rfl⟩
  intro srcs k
  suffices h : ∀ (srcs : List (Option (List (String × JSValue))))
      (hs : List (String × String)),
      headersGet (srcs.foldl (fun hs src =>
        match src with
        | none => hs
        | some entries => entries.foldl applyHeaderEntry hs) hs) k =
      (flattenHeaderSources srcs).foldl (resolveHeaderStep k) (headersGet hs k) by
    simpa [mergeHeaders, resolveHeaderKey, headersGet] using h srcs []
  intro srcs
  induction srcs with
  | nil => intro hs; rfl
  | cons src rest ih =>
    intro hs
    cases src with
    | none => simpa [flattenHeaderSources] using ih hs
    | some entries =>
      simp only [List.foldl_cons, ih, headersGet_foldl_entries,
        flattenHeaderSources, List.foldr_cons, Option.getD_some, List.foldl_append]

/-- Left-to-right sequencing of fallible fragments (the first error wins). -/
def sequenceExcept : List (Except String String) → Except String (List String)
  | [] => .ok []
  | e :: es => do
    let x ← e
    let xs ← sequenceExcept es
    .ok (x :: xs)

/-- What the C1 claim says one query parameter contributes: `none` when the
value is nullish (skipped), otherwise the fragment of the encoder it is
routed to — arrays to `serializeArrayParam` under
`{style: "form", explode: true, ...globalOptions.array, allowReserved}`,
plain objects to `serializeObjectParam` under
`{style: "deepObject", explode: true, ...globalOptions.object, allowReserved}`,
everything else to `serializePrimitiveParam` with the global options. -/
def routeQueryParam (options : QuerySerializerOptions) (nv : String × JSValue) :
    Option (Except String String) :=
  match nv.2 with
  | .undef => none
  | .null => none
  | .arr xs => some (serializeArrayParam nv.1 (.arr xs) (arrayCallOptions options))
  | .obj fs => some (serializeObjectParam nv.1 (.obj fs) (objectCallOptions options))
  | v => some (serializePrimitiveParam nv.1 v
      { allowReserved := options.allowReserved.getD false })

theorem querySerializerGo_eq_filterMap (options : QuerySerializerOptions) :
    ∀ qp : List (String × JSValue),
      querySerializerGo options qp =
        sequenceExcept (qp.filterMap (routeQueryParam options))
  | [] => rfl
  | (name, value) :: rest => by
    have ih := querySerializerGo_eq_filterMap options rest
    cases value <;>
      simp only [querySerializerGo, routeQueryParam, List.filterMap_cons,
        sequenceExcept, ih]

/-- C1 (amended): the serializer produced by `createQuerySerializer`
processes parameters in insertion order, skips nullish values, routes
arrays/objects/primitives to the three encoders with exactly the claimed
option merging, and returns the `&`-join of ALL pushed fragments — an empty
fragment (e.g. from an empty array) is joined too and so contributes an `&`
separator, rather than being dropped. -/
theorem createQuerySerializer_routing (options : QuerySerializerOptions)
    (qp : List (String × JSValue)) :
    createQuerySerializer options qp =
      (do
        let frags ← sequenceExcept (qp.filterMap (routeQueryParam options))
        .ok (String.intercalate "&" frags)) := by
  unfold createQuerySerializer
  rw [querySerializerGo_eq_filterMap]

/-- Counterexample to C1 as stated: with the default options, the query
`{a: [], b: "1"}` produces the fragment list `["", "b=1"]` and the code
returns `"&b=1"`, not the non-empty-fragments join
`"b=1"`. -/
theorem createQuerySerializer_empty_fragment_counterexample :
    createQuerySerializer {} [("a", .arr []), ("b", .str "1")] = .ok "&b=1" ∧
    "&b=1" ≠ "b=1" := by
  exact ⟨rfl, by decide⟩

/-- The `k1,v1,k2,v2,...` flattening of C2 (keys raw, values raw when
`allowReserved` is `true`, percent-encoded otherwise). -/
def objectFlatten (allowReserved : Bool) (fields : List (String × JSValue)) :
    List JSValue :=
  fields.flatMap fun kv =>
    [JSValue.str kv.1,
     if allowReserved then kv.2
     else JSValue.str (encodeURIComponent (jsToString kv.2))]

/-- The per-style wrapping of the flattened string in C2. -/
def objectWrapFlat (style name flat : String) : String :=
  if style = "form" then name ++ "=" ++ flat
  else if style = "label" then "." ++ flat
  else if style = "matrix" then ";" ++ name ++ "=" ++ flat
  else flat

/-- C2 (amended): with `explode = false` and any style other than
`deepObject`, `serializeObjectParam` comma-joins the `k1,v1,k2,v2,...`
flattening in key insertion order (values percent-encoded unless
`allowReserved`) and wraps it per style (`form` → `name={flat}`, `label` →
`.{flat}`, `matrix` → `;{name}={flat}`, anything else bare); for style
`deepObject` the `explode = false` flag is ignored and the exploded
`name[k]=v&...` form is produced instead of the bare flat string. -/
theorem serializeObjectParam_explode_false (name : String)
    (fields : List (String × JSValue)) (options : SerializationOptions)
    (hexp : options.explode = false) :
    (options.style ≠ "deepObject" →
      serializeObjectParam name (.obj fields) options =
        .ok (objectWrapFlat options.style name
          (jsJoin "," (objectFlatten options.allowReserved fields)))) ∧
    (options.style = "deepObject" →
      serializeObjectParam name (.obj fields) options =
        (do
          let values ← fields.mapM fun kv =>
            serializePrimitiveParam (name ++ "[" ++ kv.1 ++ "]") kv.2 options
          .ok (String.intercalate "&" values))) := by
  constructor
  · intro hne
    unfold serializeObjectParam
    simp only [entriesForIn]
    rw [if_pos ⟨hne, hexp⟩]
    unfold objectFlatten objectWrapFlat
    split <;> simp_all
  · intro hd
    unfold serializeObjectParam
    simp only [entriesForIn]
    rw [if_neg (by simp [hd])]
    simp [hd]

/-- Witness for `serializeObjectParam_explode_false`, covering both the
`form` wrap and the `deepObject` override. -/
theorem serializeObjectParam_explode_false_witness :
    serializeObjectParam "k" (.obj [("a", .str "x y")])
      { style := "form", explode := false } = .ok "k=a,x%20y" ∧
    serializeObjectParam "color" (.obj [("R", .num 100)])
      { style := "deepObject", explode := false } = .ok "color[R]=100" := by
  constructor
  · have h := (serializeObjectParam_explode_false "k" [("a", .str "x y")]
      { style := "form", explode := false } rfl).1 (by decide)
    rw [h]; rfl
  · have h := (serializeObjectParam_explode_false "color" [("R", .num 100)]
      { style := "deepObject", explode := false } rfl).2 rfl
    rw [h]; rfl

/-- Counterexample to C2 as stated: for style `deepObject` with
`explode = false` the code does NOT return the bare flat string `R,100`;
it returns the exploded `color[R]=100`. -/
theorem serializeObjectParam_deepObject_counterexample :
    serializeObjectParam "color" (.obj [("R", .num 100)])
      { style := "deepObject", explode := false, allowReserved := false } =
      .ok "color[R]=100" ∧
    "color[R]=100" ≠ "R,100" := by
  exact ⟨rfl, by decide⟩

/-- C5 (amended): a TOP-LEVEL query parameter whose value is `undefined` or
`null` is skipped by the query serializer (it contributes no fragment at
all), and `serializePrimitiveParam` maps nullish values to the empty string;
but nullish values INSIDE composite parameters are not omitted — e.g. a
`null` element of a non-exploded array is percent-encoded as the literal
text `null`. -/
theorem nullish_value_handling (options : QuerySerializerOptions)
    (name : String) (qp : List (String × JSValue)) :
    createQuerySerializer options ((name, .null) :: qp) =
      createQuerySerializer options qp ∧
    createQuerySerializer options ((name, .undef) :: qp) =
      createQuerySerializer options qp ∧
    (∀ opts : SerializationOptions,
      serializePrimitiveParam name .null opts = .ok "" ∧
      serializePrimitiveParam name .undef opts = .ok "") ∧
    serializeArrayParam "id" (.arr [.null])
      { style := "simple", explode := false } = .ok "null" := by
  exact ⟨rfl, rfl, fun opts => ⟨rfl, rfl⟩, rfl⟩

/-- Counterexample to C5 as stated: a `null` member value of an object
parameter is NOT omitted by `serializeObjectParam` with `explode = false`;
it is rendered as the literal text `null` in the flattened output. -/
theorem nullish_member_not_omitted_counterexample :
    serializeObjectParam "k" (.obj [("a", .null)])
      { style := "form", explode := false, allowReserved := false } =
      .ok ("k=a," ++ "null") := by
  rfl

/-- Number of `?` characters in a string. -/
def countQuestionMarks (s : String) : Nat := s.data.count '?'

/-- C10 (amended): `createFinalURL` strips every leading `?` of the
serializer output; when the stripped remainder is empty no `?` is appended,
otherwise exactly one `?` is appended between the pathname and the stripped
remainder — so `createFinalURL` itself introduces at most one `?`, though
`?` characters surviving inside the remainder (or present in the base URL or
pathname) stay in the final URL. -/
theorem createFinalURL_question_mark_handling (baseUrl pathname out : String)
    (qp : List (String × JSValue)) :
    createFinalURL pathname
      { baseUrl := baseUrl, pathParams := none, queryParams := qp,
        querySerializer := fun _ => .ok out } =
      .ok (some (if stripLeadingQuestionMarks out = "" then baseUrl ++ pathname
        else baseUrl ++ pathname ++ "?" ++ stripLeadingQuestionMarks out)) ∧
    countQuestionMarks
      (if stripLeadingQuestionMarks out = "" then baseUrl ++ pathname
        else baseUrl ++ pathname ++ "?" ++ stripLeadingQuestionMarks out) =
      countQuestionMarks (baseUrl ++ pathname) +
        countQuestionMarks (stripLeadingQuestionMarks out) +
        (if stripLeadingQuestionMarks out = "" then 0 else 1) := by
  constructor
  · have hL : createFinalURL pathname
        { baseUrl := baseUrl, pathParams := none, queryParams := qp,
          querySerializer := fun _ => .ok out } =
        if stripLeadingQuestionMarks out = "" then
          .ok (some (baseUrl ++ pathname))
        else
          .ok (some (baseUrl ++ pathname ++ "?" ++ stripLeadingQuestionMarks out)) := rfl
    rw [hL]
    by_cases h : stripLeadingQuestionMarks out = "" <;> simp [h]
  · split
    · next h => simp [h, countQuestionMarks]
    · next h =>
      have hc : ∀ a b : String,
          countQuestionMarks (a ++ b) =
            countQuestionMarks a + countQuestionMarks b := by
        intro a b
        simp [countQuestionMarks, String.data_append]
      rw [hc, hc]
      have : countQuestionMarks "?" = 1 := rfl
      omega

/-- Counterexample to C10 as stated: a serializer output containing a
non-leading `?` yields a final URL with two `?` characters. -/
theorem createFinalURL_two_question_marks_counterexample :
    createFinalURL "/p"
      { baseUrl := "", pathParams := none, queryParams := [],
        querySerializer := fun _ => .ok "a?b" } = .ok (some "/p?a?b") ∧
    countQuestionMarks "/p?a?b" = 2 := by
  exact ⟨rfl, rfl⟩

/-- C3: evaluation of the code at the failing input.  `defaultPathSerializer`
does return `undefined` on a placeholder-free template, but `createFinalURL`
assigns that `undefined` to the URL whenever `params.path` is supplied, so
the final URL becomes JS `undefined` (and string-coerces to `"undefined?..."`
when a query string is appended) instead of `baseUrl + pathname`. -/
theorem createFinalURL_no_placeholder_bug :
    defaultPathSerializer "https://x/ping" [("id", .str "1")] = .ok none ∧
    createFinalURL "/ping"
      { baseUrl := "https://x", pathParams := some [("id", .str "1")],
        queryParams := [], querySerializer := createQuerySerializer {} } =
      .ok none ∧
    createFinalURL "/ping"
      { baseUrl := "https://x", pathParams := some [("id", .str "1")],
        queryParams := [("q", .str "1")],
        querySerializer := createQuerySerializer {} } =
      .ok (some "undefined?q=1") := by
  exact ⟨rfl, rfl, rfl⟩
